import Mathlib

/-!
Verification development for the finly-backend P2P trading core.

The definitions below are a shallow embedding of the wallet ledger, offer
registry and trade engine found in src/routes/p2p.ts, together with the
data shapes from src/models/P2POffer.ts, src/models/P2PTrade.ts and the
Wallet / Deposit mongoose models.  JavaScript numbers are modelled as exact
rationals (Rat); Mongo documents are Lean structures; a collection is a
list of documents in insertion order, findOne is List.find? and a
document save is an id-keyed replacement in the list.  Mongoose schema
validation (the min: 0 bounds on balances and amounts, and the
maxLimit >= minLimit pre-save hook) runs when a document is saved or
created; a validation failure aborts the handler at that point, exactly as
the thrown mongoose ValidationError lands in the route's catch block with
the writes made so far still persisted.

The stored P2PTrade document carries exactly the fields declared in
p2pTradeSchema (src/models/P2PTrade.ts lines 26-90).  The IP2PTrade
interface additionally declares escrowHeld, payoutMethod and
payoutDetails, and the route handlers write and read them, but they are
not schema paths: mongoose strict mode (the default; the only schema
option set is timestamps) silently strips them from P2PTrade.create and
findByIdAndUpdate payloads, and reading them on a returned document
always yields undefined.  Consequently the escrow blocks of
PATCH /trades/:id/status — both guarded by if (trade.escrowHeld) — never
execute.  The embedding reflects this: the stored trade document omits
those fields, and the status handler performs no wallet mutation.
-/

namespace Finly

inductive OfferType
  | buy
  | sell
deriving DecidableEq, Repr

inductive OfferStatus
  | active
  | completed
  | cancelled
  | expired
deriving DecidableEq, Repr

/-- Trade status enum from src/models/P2PTrade.ts. -/
inductive TradeStatus
  | pending
  | payment_sent
  | payment_received
  | crypto_released
  | completed
  | cancelled
  | disputed
deriving DecidableEq, Repr

/-- Wallet document (src Wallet model): per-user, per-asset balance record.
Address, key material and label are omitted: they never interact with
balances or the trade engine. -/
structure Wallet where
  id : Nat
  userId : Nat
  cryptocurrency : String
  network : String
  balance : Rat
  lockedBalance : Rat
  totalDeposits : Rat
  totalWithdrawals : Rat
  isActive : Bool
  isDefault : Bool
deriving DecidableEq, Repr

/-- P2POffer document (src/models/P2POffer.ts).  Timestamps are Nat
milliseconds. -/
structure P2POffer where
  id : Nat
  userId : Nat
  type : OfferType
  cryptocurrency : String
  fiatCurrency : String
  amount : Rat
  price : Rat
  minLimit : Rat
  maxLimit : Rat
  paymentMethods : List String
  status : OfferStatus
  completedAt : Option Nat
  expiresAt : Nat
deriving DecidableEq, Repr

/-- Stored P2PTrade document: exactly the paths declared in
p2pTradeSchema (src/models/P2PTrade.ts).  The IP2PTrade interface also
declares escrowHeld, payoutMethod and payoutDetails, but those are not
schema paths: mongoose strict mode strips them from every create and
update, so no stored trade carries them and reads of trade.escrowHeld
always yield undefined (falsy). -/
structure P2PTrade where
  id : Nat
  offerId : Nat
  buyerId : Nat
  sellerId : Nat
  cryptocurrency : String
  fiatCurrency : String
  amount : Rat
  price : Rat
  totalFiat : Rat
  paymentMethod : String
  status : TradeStatus
  escrowAmount : Rat
  paymentProof : Option String
  notes : Option String
  completedAt : Option Nat
  cancelledAt : Option Nat
deriving DecidableEq, Repr

/-- The document store backing the routes. -/
structure DB where
  wallets : List Wallet
  offers : List P2POffer
  trades : List P2PTrade
  nextWalletId : Nat
  nextOfferId : Nat
  nextTradeId : Nat
deriving DecidableEq, Repr

/-- Wallet schema validation: the four min: 0 bounds checked by mongoose
when a wallet document is saved. -/
def WalletOk (w : Wallet) : Prop :=
  0 ≤ w.balance ∧ 0 ≤ w.lockedBalance ∧ 0 ≤ w.totalDeposits ∧ 0 ≤ w.totalWithdrawals

instance (w : Wallet) : Decidable (WalletOk w) := by
  unfold WalletOk; infer_instance

/-- Trade schema validation (min: 0 on amount, price, totalFiat,
escrowAmount) run by P2PTrade.create. -/
def TradeOk (t : P2PTrade) : Prop :=
  0 ≤ t.amount ∧ 0 ≤ t.price ∧ 0 ≤ t.totalFiat ∧ 0 ≤ t.escrowAmount

instance (t : P2PTrade) : Decidable (TradeOk t) := by
  unfold TradeOk; infer_instance

/-- Offer schema validation: min: 0 bounds plus the pre-save hook that
rejects maxLimit < minLimit. -/
def OfferOk (o : P2POffer) : Prop :=
  o.minLimit ≤ o.maxLimit ∧ 0 ≤ o.amount ∧ 0 ≤ o.price ∧ 0 ≤ o.minLimit ∧ 0 ≤ o.maxLimit

instance (o : P2POffer) : Decidable (OfferOk o) := by
  unfold OfferOk; infer_instance

/-- Persist a wallet document: replace the stored wallet with the same _id. -/
def saveWallet (w : Wallet) (ws : List Wallet) : List Wallet :=
  ws.map (fun x => if x.id = w.id then w else x)

/-- Persist an offer document. -/
def saveOffer (o : P2POffer) (os : List P2POffer) : List P2POffer :=
  os.map (fun x => if x.id = o.id then o else x)

/-- Persist a trade document (findByIdAndUpdate). -/
def saveTrade (t : P2PTrade) (ts : List P2PTrade) : List P2PTrade :=
  ts.map (fun x => if x.id = t.id then t else x)

/-- The escrow-wallet query used by POST /offers/:id/accept:
Wallet.findOne with userId, cryptocurrency, balance: gte tradeAmount,
isActive: true (no network filter). -/
def lockFind (uid : Nat) (crypto : String) (tradeAmount : Rat) (ws : List Wallet) : Option Wallet :=
  ws.find? fun w =>
    w.userId == uid && w.cryptocurrency == crypto &&
      decide (tradeAmount ≤ w.balance) && w.isActive

/-- Supported cryptocurrencies list from the routes. -/
def supportedCryptos : List String :=
  ["BTC", "ETH", "USDT", "BNB", "ADA", "XRP", "SOL", "DOT", "DOGE", "AVAX"]

/-- The escrow lock of POST /offers/:id/accept:
lockedBalance += tradeAmount; balance -= tradeAmount. -/
def lockWallet (w : Wallet) (tradeAmount : Rat) : Wallet :=
  { w with lockedBalance := w.lockedBalance + tradeAmount,
           balance := w.balance - tradeAmount }

/-- The document stored by P2PTrade.create in POST /offers/:id/accept.
The route also passes escrowHeld: true, but escrowHeld is not a
p2pTradeSchema path, so strict mode strips it: it is absent from the
stored (and returned) document. -/
def mkTrade (db : DB) (offer : P2POffer) (userId : Nat) (amount : Rat)
    (paymentMethod : String) : P2PTrade :=
  { id := db.nextTradeId
    offerId := offer.id
    buyerId := if offer.type = .sell then userId else offer.userId
    sellerId := if offer.type = .sell then offer.userId else userId
    cryptocurrency := offer.cryptocurrency
    fiatCurrency := offer.fiatCurrency
    amount := amount / offer.price
    price := offer.price
    totalFiat := amount
    paymentMethod := paymentMethod
    status := .pending
    escrowAmount := amount / offer.price
    paymentProof := none
    notes := none
    completedAt := none
    cancelledAt := none }

/-- Offer consumption in POST /offers/:id/accept: if the remaining amount
is at most the trade amount the offer is marked completed (its amount
field is left as it was); otherwise the amount is decremented. -/
def consumeOffer (o : P2POffer) (tradeAmount : Rat) (now : Nat) : P2POffer :=
  if o.amount ≤ tradeAmount then
    { o with status := .completed, completedAt := some now }
  else
    { o with amount := o.amount - tradeAmount }

/-- Outcomes of POST /offers/:id/accept.  saveFailed stands for a mongoose
validation error thrown mid-handler (HTTP 500), with the writes already
made still persisted in the returned DB. -/
inductive AcceptResult
  | notFound
  | notActive
  | ownOffer
  | outsideLimits
  | badPaymentMethod
  | insufficientFunds
  | saveFailed
  | created (t : P2PTrade)
deriving DecidableEq, Repr

/-- POST /offers/:id/accept (src/routes/p2p.ts lines 201-357).
The sell and buy branches of the source are identical except for the
userId in the wallet query (the acceptor on sell offers, the offer owner
on buy offers), so they are factored through a single conditional. -/
def acceptOffer (db : DB) (userId oid : Nat) (amount : Rat) (paymentMethod : String)
    (now : Nat) : AcceptResult × DB :=
  match db.offers.find? (fun o => o.id == oid) with
  | none => (.notFound, db)
  | some offer =>
    if offer.status ≠ .active then (.notActive, db)
    else if offer.userId = userId then (.ownOffer, db)
    else if amount < offer.minLimit ∨ offer.maxLimit < amount then (.outsideLimits, db)
    else if paymentMethod ∉ offer.paymentMethods then (.badPaymentMethod, db)
    else
      match lockFind (if offer.type = .sell then userId else offer.userId)
          offer.cryptocurrency (amount / offer.price) db.wallets with
      | none => (.insufficientFunds, db)
      | some w =>
        if WalletOk (lockWallet w (amount / offer.price)) then
          if TradeOk (mkTrade db offer userId amount paymentMethod) then
            if OfferOk (consumeOffer offer (amount / offer.price) now) then
              (.created (mkTrade db offer userId amount paymentMethod),
                { db with
                    wallets := saveWallet (lockWallet w (amount / offer.price)) db.wallets
                    trades := db.trades ++ [mkTrade db offer userId amount paymentMethod]
                    offers := saveOffer (consumeOffer offer (amount / offer.price) now) db.offers
                    nextTradeId := db.nextTradeId + 1 })
            else
              (.saveFailed,
                { db with
                    wallets := saveWallet (lockWallet w (amount / offer.price)) db.wallets
                    trades := db.trades ++ [mkTrade db offer userId amount paymentMethod]
                    nextTradeId := db.nextTradeId + 1 })
          else
            (.saveFailed,
              { db with wallets := saveWallet (lockWallet w (amount / offer.price)) db.wallets })
        else (.saveFailed, db)

/-- Outcomes of PATCH /trades/:id/status. -/
inductive UpdateResult
  | notFound
  | notAuthorized
  | invalidStatus
  | ok (t : P2PTrade)
deriving DecidableEq, Repr

/-- The validStatuses membership check of PATCH /trades/:id/status,
as a parse of the request's status string. -/
def tradeStatusOfString (s : String) : Option TradeStatus :=
  if s = "pending" then some .pending
  else if s = "payment_sent" then some .payment_sent
  else if s = "payment_received" then some .payment_received
  else if s = "crypto_released" then some .crypto_released
  else if s = "completed" then some .completed
  else if s = "cancelled" then some .cancelled
  else if s = "disputed" then some .disputed
  else none

/-- Optional metadata fields of the status-update request body.
payoutMethod and payoutDetails are carried to mirror the request shape,
but they are not p2pTradeSchema paths, so findByIdAndUpdate strips them
and they never reach the stored trade. -/
structure UpdateExtras where
  paymentProof : Option String
  notes : Option String
  payoutMethod : Option String
  payoutDetails : Option String
deriving DecidableEq, Repr

def noExtras : UpdateExtras :=
  { paymentProof := none, notes := none, payoutMethod := none, payoutDetails := none }

/-- The schema-path part of updateData as applied by findByIdAndUpdate:
the new status plus paymentProof/notes when supplied.  The route also
places payoutMethod/payoutDetails in updateData when supplied, but those
are not schema paths and strict mode strips them from the update. -/
def applyExtras (t : P2PTrade) (e : UpdateExtras) (st : TradeStatus) : P2PTrade :=
  { t with
    status := st
    paymentProof := match e.paymentProof with | some p => some p | none => t.paymentProof
    notes := match e.notes with | some n => some n | none => t.notes }

/-- The stored trade after the completed branch: status, metadata and
completedAt.  The branch's escrow block (credit the buyer wallet, add
escrowHeld := false to updateData) is guarded by if (trade.escrowHeld),
which is always undefined on a stored trade, so it contributes nothing. -/
def completedTrade (t : P2PTrade) (e : UpdateExtras) (now : Nat) : P2PTrade :=
  { applyExtras t e .completed with completedAt := some now }

/-- The stored trade after the cancelled branch: status, metadata and
cancelledAt.  The branch's escrow block (unlock the seller wallet, add
escrowHeld := false) is likewise dead. -/
def cancelledTrade (t : P2PTrade) (e : UpdateExtras) (now : Nat) : P2PTrade :=
  { applyExtras t e .cancelled with cancelledAt := some now }

/-- PATCH /trades/:id/status (src/routes/p2p.ts lines 402-485).
updateData carries the new status and any supplied metadata; the
completed branch adds completedAt, the cancelled branch adds cancelledAt.
Both escrow blocks — the release to the buyer wallet inside the completed
branch (lines 434-452) and the return to the seller wallet inside the
cancelled branch (lines 458-471) — are guarded by if (trade.escrowHeld).
escrowHeld is not a p2pTradeSchema path, so on every trade that findById
can return the read yields undefined and the guard is false: neither
block ever runs, and no wallet is ever touched by this handler. -/
def updateTradeStatus (db : DB) (userId tid : Nat) (status : String) (e : UpdateExtras)
    (now : Nat) : UpdateResult × DB :=
  match db.trades.find? (fun t => t.id == tid) with
  | none => (.notFound, db)
  | some trade =>
    if trade.buyerId ≠ userId ∧ trade.sellerId ≠ userId then (.notAuthorized, db)
    else
      match tradeStatusOfString status with
      | none => (.invalidStatus, db)
      | some st =>
        if st = .completed then
          (.ok (completedTrade trade e now),
            { db with trades := saveTrade (completedTrade trade e now) db.trades })
        else if st = .cancelled then
          (.ok (cancelledTrade trade e now),
            { db with trades := saveTrade (cancelledTrade trade e now) db.trades })
        else
          (.ok (applyExtras trade e st),
            { db with trades := saveTrade (applyExtras trade e st) db.trades })

/-- Query filter of GET /offers. -/
structure OfferFilter where
  type : Option OfferType
  cryptocurrency : Option String
  fiatCurrency : Option String
  paymentMethod : Option String
  minAmount : Option Rat
  maxAmount : Option Rat
deriving Repr

/-- The noFilter query: no optional filters supplied. -/
def noFilter : OfferFilter :=
  { type := none, cryptocurrency := none, fiatCurrency := none,
    paymentMethod := none, minAmount := none, maxAmount := none }

/-- The Mongo filter built by GET /offers: status: active plus the
optional query parameters.  No expiresAt condition appears. -/
def offerMatches (f : OfferFilter) (o : P2POffer) : Bool :=
  o.status == .active
    && (match f.type with | none => true | some t => o.type == t)
    && (match f.cryptocurrency with | none => true | some c => o.cryptocurrency == c)
    && (match f.fiatCurrency with | none => true | some c => o.fiatCurrency == c)
    && (match f.paymentMethod with | none => true | some p => o.paymentMethods.contains p)
    && (match f.minAmount with | none => true | some m => decide (m ≤ o.amount))
    && (match f.maxAmount with | none => true | some m => decide (o.amount ≤ m))

/-- GET /offers, modelled at the level of the filter (sorting and
pagination reorder and truncate but never return an offer the filter
rejects). -/
def listOffers (db : DB) (f : OfferFilter) : List P2POffer :=
  db.offers.filter (offerMatches f)

/-- Outcomes of POST /offers. -/
inductive CreateOfferResult
  | missingFields
  | badLimits
  | amountOutsideLimits
  | unsupportedCrypto
  | saveFailed
  | created (o : P2POffer)
deriving DecidableEq, Repr

/-- POST /offers (src/routes/p2p.ts lines 69-141).  The required-field
check rejects falsy numeric inputs, i.e. zeros. -/
def createOffer (db : DB) (userId : Nat) (type : OfferType)
    (cryptocurrency fiatCurrency : String) (amount price minLimit maxLimit : Rat)
    (paymentMethods : List String) (expiresInHours now : Nat) : CreateOfferResult × DB :=
  if amount = 0 ∨ price = 0 ∨ minLimit = 0 ∨ maxLimit = 0 then (.missingFields, db)
  else if maxLimit < minLimit then (.badLimits, db)
  else if amount < minLimit ∨ maxLimit < amount then (.amountOutsideLimits, db)
  else if cryptocurrency ∉ supportedCryptos then (.unsupportedCrypto, db)
  else
    let o : P2POffer :=
      { id := db.nextOfferId
        userId := userId
        type := type
        cryptocurrency := cryptocurrency
        fiatCurrency := fiatCurrency
        amount := amount
        price := price
        minLimit := minLimit
        maxLimit := maxLimit
        paymentMethods := paymentMethods
        status := .active
        completedAt := none
        expiresAt := now + expiresInHours * 3600000 }
    if OfferOk o then
      (.created o, { db with offers := db.offers ++ [o], nextOfferId := db.nextOfferId + 1 })
    else (.saveFailed, db)

/-- Outcomes of POST /wallets. -/
inductive CreateWalletResult
  | unsupportedCrypto
  | duplicate
  | created (w : Wallet)
deriving DecidableEq, Repr

/-- POST /wallets (lines 584-670): checks the supported list and the
absence of an active wallet for the same (user, crypto, network), then
creates a zero-balance wallet.  The isDefault pre-save hook clears
isDefault on the user's other wallets for the same cryptocurrency. -/
def createWallet (db : DB) (userId : Nat) (cryptocurrency network : String)
    (isDefault : Bool) : CreateWalletResult × DB :=
  if cryptocurrency ∉ supportedCryptos then (.unsupportedCrypto, db)
  else
    match db.wallets.find? (fun w =>
        w.userId == userId && w.cryptocurrency == cryptocurrency &&
          w.network == network && w.isActive) with
    | some _ => (.duplicate, db)
    | none =>
      let w : Wallet :=
        { id := db.nextWalletId
          userId := userId
          cryptocurrency := cryptocurrency
          network := network
          balance := 0
          lockedBalance := 0
          totalDeposits := 0
          totalWithdrawals := 0
          isActive := true
          isDefault := isDefault }
      let ws :=
        if isDefault then
          db.wallets.map fun x =>
            if x.userId = userId ∧ x.cryptocurrency = cryptocurrency then
              { x with isDefault := false }
            else x
        else db.wallets
      (.created w, { db with wallets := ws ++ [w], nextWalletId := db.nextWalletId + 1 })

/-- PATCH /wallets/:id (lines 673-693): findOneAndUpdate on label and
isDefault only; balances are untouched. -/
def updateWallet (db : DB) (userId wid : Nat) (isDefault : Option Bool) : Bool × DB :=
  match db.wallets.find? (fun w => w.id == wid && w.userId == userId) with
  | none => (false, db)
  | some w =>
    let w2 : Wallet := { w with isDefault := isDefault.getD w.isDefault }
    (true, { db with wallets := saveWallet w2 db.wallets })

/-- DELETE /wallets/:id (lines 696-716): refuses while any balance is
positive, otherwise removes the document. -/
def deleteWallet (db : DB) (userId wid : Nat) : Bool × DB :=
  match db.wallets.find? (fun w => w.id == wid && w.userId == userId) with
  | none => (false, db)
  | some w =>
    if 0 < w.balance ∨ 0 < w.lockedBalance then (false, db)
    else (true, { db with wallets := db.wallets.filter (fun x => x.id != wid) })

/-- Outcomes of POST /deposits together with its simulated confirmation. -/
inductive DepositResult
  | missingFields
  | walletNotFound
  | invalidAmount
  | confirmed
deriving DecidableEq, Repr

/-- POST /deposits followed by the simulated confirmation (lines 721-783):
the falsy check rejects amount = 0, Deposit.create validation (min: 0)
rejects negative amounts, and the confirmation increments the wallet's
balance and totalDeposits by the deposited amount. -/
def createDeposit (db : DB) (userId wid : Nat) (amount : Rat) : DepositResult × DB :=
  if amount = 0 then (.missingFields, db)
  else
    match db.wallets.find? (fun w => w.id == wid && w.userId == userId) with
    | none => (.walletNotFound, db)
    | some w =>
      if amount < 0 then (.invalidAmount, db)
      else
        let w2 : Wallet :=
          { w with balance := w.balance + amount, totalDeposits := w.totalDeposits + amount }
        (.confirmed, { db with wallets := saveWallet w2 db.wallets })

/-- The operations the core exposes, as invoked by the claims about
whole-system invariants. -/
inductive Op
  | createOffer (userId : Nat) (type : OfferType) (crypto fiat : String)
      (amount price minLimit maxLimit : Rat) (pms : List String) (hrs now : Nat)
  | accept (userId oid : Nat) (amount : Rat) (pm : String) (now : Nat)
  | updateTrade (userId tid : Nat) (status : String) (e : UpdateExtras) (now : Nat)
  | createWallet (userId : Nat) (crypto network : String) (isDefault : Bool)
  | updateWallet (userId wid : Nat) (isDefault : Option Bool)
  | deleteWallet (userId wid : Nat)
  | deposit (userId wid : Nat) (amount : Rat)

/-- State transition of a single operation (the response is discarded). -/
def applyOp (db : DB) (op : Op) : DB :=
  match op with
  | .createOffer u ty c f a p mn mx pms h n => (createOffer db u ty c f a p mn mx pms h n).2
  | .accept u oid a pm n => (acceptOffer db u oid a pm n).2
  | .updateTrade u tid s e n => (updateTradeStatus db u tid s e n).2
  | .createWallet u c nw d => (createWallet db u c nw d).2
  | .updateWallet u wid d => (updateWallet db u wid d).2
  | .deleteWallet u wid => (deleteWallet db u wid).2
  | .deposit u wid a => (createDeposit db u wid a).2

def applyOps (db : DB) (ops : List Op) : DB :=
  ops.foldl applyOp db

/-- The wallet-ledger invariant of the spec: available and locked are
nonnegative. -/
def WalletsNonneg (ws : List Wallet) : Prop :=
  ∀ w ∈ ws, 0 ≤ w.balance ∧ 0 ≤ w.lockedBalance

instance (ws : List Wallet) : Decidable (WalletsNonneg ws) := by
  unfold WalletsNonneg; infer_instance

/-- Contribution of one wallet to the total supply of a cryptocurrency. -/
def walletTotal (c : String) (w : Wallet) : Rat :=
  if w.cryptocurrency = c then w.balance + w.lockedBalance else 0

/-- Total supply of a cryptocurrency over all wallets: available plus
locked. -/
def totalOf (c : String) (ws : List Wallet) : Rat :=
  (ws.map (walletTotal c)).sum

/-- Distinct wallet document ids (Mongo _id uniqueness). -/
def IdsNodup (ws : List Wallet) : Prop :=
  (ws.map Wallet.id).Nodup

instance (ws : List Wallet) : Decidable (IdsNodup ws) := by
  unfold IdsNodup; infer_instance

/-! ### Ledger lemmas -/

theorem walletsNonneg_saveWallet {ws : List Wallet} {w : Wallet}
    (h : WalletsNonneg ws) (hb : 0 ≤ w.balance) (hl : 0 ≤ w.lockedBalance) :
    WalletsNonneg (saveWallet w ws) := by
  intro x hx
  unfold saveWallet at hx
  rcases List.mem_map.mp hx with ⟨y, hy, rfl⟩
  by_cases hid : y.id = w.id
  · rw [if_pos hid]; exact ⟨hb, hl⟩
  · rw [if_neg hid]; exact h y hy

theorem acceptOffer_walletsNonneg (db : DB) (u oid : Nat) (a : Rat) (pm : String) (now : Nat)
    (h : WalletsNonneg db.wallets) :
    WalletsNonneg ((acceptOffer db u oid a pm now).2.wallets) := by
  unfold acceptOffer
  repeat' split
  all_goals dsimp only
  all_goals try exact h
  all_goals refine walletsNonneg_saveWallet h ?_ ?_ <;> simp_all [WalletOk, lockWallet]

theorem updateTradeStatus_wallets_eq (db : DB) (u tid : Nat) (s : String)
    (e : UpdateExtras) (now : Nat) :
    (updateTradeStatus db u tid s e now).2.wallets = db.wallets := by
  unfold updateTradeStatus
  repeat' split
  all_goals rfl

theorem updateTradeStatus_walletsNonneg (db : DB) (u tid : Nat) (s : String)
    (e : UpdateExtras) (now : Nat) (h : WalletsNonneg db.wallets) :
    WalletsNonneg ((updateTradeStatus db u tid s e now).2.wallets) := by
  rw [updateTradeStatus_wallets_eq]
  exact h

theorem createOffer_walletsNonneg (db : DB) (u : Nat) (ty : OfferType) (c f : String)
    (a p mn mx : Rat) (pms : List String) (hrs now : Nat) (h : WalletsNonneg db.wallets) :
    WalletsNonneg ((createOffer db u ty c f a p mn mx pms hrs now).2.wallets) := by
  unfold createOffer
  dsimp only
  repeat' split
  all_goals dsimp only
  all_goals exact h

theorem createWallet_walletsNonneg (db : DB) (u : Nat) (c nw : String) (d : Bool)
    (h : WalletsNonneg db.wallets) :
    WalletsNonneg ((createWallet db u c nw d).2.wallets) := by
  unfold createWallet
  dsimp only
  repeat' split
  all_goals dsimp only
  all_goals try exact h
  all_goals
    intro x hx
    rcases List.mem_append.mp hx with hx | hx
    · first
        | exact h x hx
        | (rcases List.mem_map.mp hx with ⟨y, hy, rfl⟩
           split <;> exact h y hy)
    · rcases List.mem_singleton.mp hx with rfl
      exact ⟨le_refl 0, le_refl 0⟩

theorem updateWallet_walletsNonneg (db : DB) (u wid : Nat) (d : Option Bool)
    (h : WalletsNonneg db.wallets) :
    WalletsNonneg ((updateWallet db u wid d).2.wallets) := by
  unfold updateWallet
  dsimp only
  split
  · exact h
  next w heq =>
    have hw := List.mem_of_find?_eq_some heq
    exact walletsNonneg_saveWallet h (h w hw).1 (h w hw).2

theorem deleteWallet_walletsNonneg (db : DB) (u wid : Nat)
    (h : WalletsNonneg db.wallets) :
    WalletsNonneg ((deleteWallet db u wid).2.wallets) := by
  unfold deleteWallet
  repeat' split
  all_goals try exact h
  all_goals
    intro x hx
    exact h x (List.mem_of_mem_filter hx)

theorem createDeposit_walletsNonneg (db : DB) (u wid : Nat) (a : Rat)
    (h : WalletsNonneg db.wallets) :
    WalletsNonneg ((createDeposit db u wid a).2.wallets) := by
  unfold createDeposit
  dsimp only
  split
  · exact h
  split
  · exact h
  next w heq =>
    split
    · exact h
    next hneg =>
      have hw := List.mem_of_find?_eq_some heq
      have ha : 0 ≤ a := le_of_not_lt hneg
      exact walletsNonneg_saveWallet h (add_nonneg (h w hw).1 ha) (h w hw).2

theorem applyOp_walletsNonneg (db : DB) (op : Op) (h : WalletsNonneg db.wallets) :
    WalletsNonneg ((applyOp db op).wallets) := by
  cases op with
  | createOffer u ty c f a p mn mx pms hrs n =>
    exact createOffer_walletsNonneg db u ty c f a p mn mx pms hrs n h
  | accept u oid a pm n => exact acceptOffer_walletsNonneg db u oid a pm n h
  | updateTrade u tid s e n => exact updateTradeStatus_walletsNonneg db u tid s e n h
  | createWallet u c nw d => exact createWallet_walletsNonneg db u c nw d h
  | updateWallet u wid d => exact updateWallet_walletsNonneg db u wid d h
  | deleteWallet u wid => exact deleteWallet_walletsNonneg db u wid h
  | deposit u wid a => exact createDeposit_walletsNonneg db u wid a h

theorem applyOps_walletsNonneg (db : DB) (ops : List Op) (h : WalletsNonneg db.wallets) :
    WalletsNonneg ((applyOps db ops).wallets) := by
  induction ops generalizing db with
  | nil => exact h
  | cons op rest ih => exact ih (applyOp db op) (applyOp_walletsNonneg db op h)

theorem saveWallet_eq_of_forall_ne {w : Wallet} {ws : List Wallet}
    (h : ∀ x ∈ ws, x.id ≠ w.id) : saveWallet w ws = ws := by
  unfold saveWallet
  induction ws with
  | nil => rfl
  | cons x xs ih =>
    simp only [List.map_cons, List.cons.injEq]
    constructor
    · rw [if_neg (h x (List.mem_cons_self x xs))]
    · exact ih fun y hy => h y (List.mem_cons_of_mem x hy)

theorem totalOf_saveWallet {c : String} {w w0 : Wallet} {ws : List Wallet}
    (hn : IdsNodup ws) (hw0 : w0 ∈ ws) (hid : w.id = w0.id) :
    totalOf c (saveWallet w ws) = totalOf c ws - walletTotal c w0 + walletTotal c w := by
  induction ws with
  | nil => cases hw0
  | cons x xs ih =>
    unfold IdsNodup at hn
    simp only [List.map_cons, List.nodup_cons] at hn
    rcases List.mem_cons.mp hw0 with rfl | hmem
    · have hx : ∀ y ∈ xs, y.id ≠ w.id := by
        intro y hy hcon
        exact hn.1 (by rw [← hid, ← hcon]; exact List.mem_map_of_mem Wallet.id hy)
      unfold saveWallet
      simp only [List.map_cons, if_pos hid.symm]
      have h2 : (xs.map fun z => if z.id = w.id then w else z) = xs :=
        saveWallet_eq_of_forall_ne hx
      unfold saveWallet at h2
      rw [h2]
      unfold totalOf
      simp only [List.map_cons, List.sum_cons]
      ring
    · have hxw : ¬ x.id = w.id := by
        intro hcon
        exact hn.1 (by rw [hcon, hid]; exact List.mem_map_of_mem Wallet.id hmem)
      unfold saveWallet
      simp only [List.map_cons, if_neg hxw]
      unfold totalOf
      simp only [List.map_cons, List.sum_cons]
      have ihh := ih (by unfold IdsNodup; exact hn.2) hmem
      unfold saveWallet totalOf at ihh
      rw [ihh]
      ring

theorem find?_saveTrade {t t0 : P2PTrade} {ts : List P2PTrade} {tid : Nat}
    (h : ts.find? (fun x => x.id == tid) = some t0) (hid : t.id = t0.id) :
    (saveTrade t ts).find? (fun x => x.id == tid) = some t := by
  have ht0 : t0.id = tid := by
    have := List.find?_some h
    simpa using this
  induction ts with
  | nil => cases h
  | cons x xs ih =>
    by_cases hpx : x.id = tid
    · unfold saveTrade
      simp only [List.map_cons]
      rw [if_pos (by rw [hpx, hid, ht0])]
      rw [List.find?_cons_of_pos _ (by simp [hid, ht0])]
    · have hx2 : ¬ x.id = t.id := by rw [hid, ht0]; exact hpx
      unfold saveTrade at ih ⊢
      simp only [List.map_cons, if_neg hx2]
      have htail : xs.find? (fun x => x.id == tid) = some t0 := by
        have := List.find?_cons_of_neg (p := fun x => x.id == tid) (l := xs) (a := x)
          (by simp [hpx])
        rw [this] at h
        exact h
      rw [List.find?_cons_of_neg _ (by simp [hpx])]
      exact ih htail


/-! ### Query characterizations -/

theorem lockFind_props {uid : Nat} {crypto : String} {t : Rat} {ws : List Wallet} {w : Wallet}
    (h : lockFind uid crypto t ws = some w) :
    w ∈ ws ∧ w.userId = uid ∧ w.cryptocurrency = crypto ∧ t ≤ w.balance ∧ w.isActive = true := by
  unfold lockFind at h
  refine ⟨List.mem_of_find?_eq_some h, ?_⟩
  have hp := List.find?_some h
  simp only [Bool.and_eq_true, beq_iff_eq, decide_eq_true_eq] at hp
  exact ⟨hp.1.1.1, hp.1.1.2, hp.1.2, hp.2⟩

theorem lockFind_mem {uid : Nat} {crypto : String} {t : Rat} {ws : List Wallet} {w : Wallet}
    (h : lockFind uid crypto t ws = some w) : w ∈ ws :=
  (lockFind_props h).1

theorem lockFind_eq_none {uid : Nat} {crypto : String} {t : Rat} {ws : List Wallet}
    (h : ∀ w ∈ ws, w.userId = uid → w.cryptocurrency = crypto → w.isActive = true →
        w.balance < t) :
    lockFind uid crypto t ws = none := by
  unfold lockFind
  rw [List.find?_eq_none]
  intro w hw
  simp only [Bool.and_eq_true, beq_iff_eq, decide_eq_true_eq]
  intro hcon
  obtain ⟨⟨⟨h1, h2⟩, h3⟩, h4⟩ := hcon
  exact absurd (h w hw h1 h2 h4) (not_lt.mpr h3)

/-! ### Handler characterizations -/

theorem acceptOffer_created_spec {db : DB} {u oid : Nat} {a : Rat} {pm : String} {now : Nat}
    {o : P2POffer} {w : Wallet}
    (hfind : db.offers.find? (fun x => x.id == oid) = some o)
    (hact : o.status = .active)
    (hown : ¬ o.userId = u)
    (hlim : ¬ (a < o.minLimit ∨ o.maxLimit < a))
    (hpm : pm ∈ o.paymentMethods)
    (hlock : lockFind (if o.type = .sell then u else o.userId) o.cryptocurrency (a / o.price)
        db.wallets = some w)
    (hwok : WalletOk (lockWallet w (a / o.price)))
    (htok : TradeOk (mkTrade db o u a pm))
    (hook : OfferOk (consumeOffer o (a / o.price) now)) :
    acceptOffer db u oid a pm now =
      (.created (mkTrade db o u a pm),
        { db with wallets := saveWallet (lockWallet w (a / o.price)) db.wallets,
                  trades := db.trades ++ [mkTrade db o u a pm],
                  offers := saveOffer (consumeOffer o (a / o.price) now) db.offers,
                  nextTradeId := db.nextTradeId + 1 }) := by
  unfold acceptOffer
  rw [hfind]
  dsimp only
  rw [if_neg (by simp [hact]), if_neg hown, if_neg hlim, if_neg (not_not_intro hpm), hlock]
  dsimp only
  rw [if_pos hwok, if_pos htok, if_pos hook]

theorem acceptOffer_insufficient_spec {db : DB} {u oid : Nat} {a : Rat} {pm : String} {now : Nat}
    {o : P2POffer}
    (hfind : db.offers.find? (fun x => x.id == oid) = some o)
    (hact : o.status = .active)
    (hown : ¬ o.userId = u)
    (hlim : ¬ (a < o.minLimit ∨ o.maxLimit < a))
    (hpm : pm ∈ o.paymentMethods)
    (hlock : lockFind (if o.type = .sell then u else o.userId) o.cryptocurrency (a / o.price)
        db.wallets = none) :
    acceptOffer db u oid a pm now = (.insufficientFunds, db) := by
  unfold acceptOffer
  rw [hfind]
  dsimp only
  rw [if_neg (by simp [hact]), if_neg hown, if_neg hlim, if_neg (not_not_intro hpm), hlock]

theorem updateTradeStatus_completed_spec {db : DB} {u tid : Nat} {s : String}
    (e : UpdateExtras) (now : Nat) {trade : P2PTrade}
    (hfind : db.trades.find? (fun x => x.id == tid) = some trade)
    (hauth : ¬ (trade.buyerId ≠ u ∧ trade.sellerId ≠ u))
    (hst : tradeStatusOfString s = some .completed) :
    updateTradeStatus db u tid s e now =
      (.ok (completedTrade trade e now),
        { db with trades := saveTrade (completedTrade trade e now) db.trades }) := by
  unfold updateTradeStatus
  rw [hfind]
  dsimp only
  rw [if_neg hauth, hst]
  dsimp only
  rw [if_pos rfl]

theorem updateTradeStatus_cancelled_spec {db : DB} {u tid : Nat} {s : String}
    (e : UpdateExtras) (now : Nat) {trade : P2PTrade}
    (hfind : db.trades.find? (fun x => x.id == tid) = some trade)
    (hauth : ¬ (trade.buyerId ≠ u ∧ trade.sellerId ≠ u))
    (hst : tradeStatusOfString s = some .cancelled) :
    updateTradeStatus db u tid s e now =
      (.ok (cancelledTrade trade e now),
        { db with trades := saveTrade (cancelledTrade trade e now) db.trades }) := by
  unfold updateTradeStatus
  rw [hfind]
  dsimp only
  rw [if_neg hauth, hst]
  dsimp only
  rw [if_neg (by decide), if_pos rfl]

theorem updateTradeStatus_other_spec {db : DB} {u tid : Nat} {s : String}
    (e : UpdateExtras) (now : Nat) {trade : P2PTrade} {st : TradeStatus}
    (hfind : db.trades.find? (fun x => x.id == tid) = some trade)
    (hauth : ¬ (trade.buyerId ≠ u ∧ trade.sellerId ≠ u))
    (hst : tradeStatusOfString s = some st)
    (h1 : ¬ st = .completed)
    (h2 : ¬ st = .cancelled) :
    updateTradeStatus db u tid s e now =
      (.ok (applyExtras trade e st),
        { db with trades := saveTrade (applyExtras trade e st) db.trades }) := by
  unfold updateTradeStatus
  rw [hfind]
  dsimp only
  rw [if_neg hauth, hst]
  dsimp only
  rw [if_neg h1, if_neg h2]

theorem updateTradeStatus_invalid_spec {db : DB} {u tid : Nat} {s : String}
    (e : UpdateExtras) (now : Nat) {trade : P2PTrade}
    (hfind : db.trades.find? (fun x => x.id == tid) = some trade)
    (hauth : ¬ (trade.buyerId ≠ u ∧ trade.sellerId ≠ u))
    (hst : tradeStatusOfString s = none) :
    updateTradeStatus db u tid s e now = (.invalidStatus, db) := by
  unfold updateTradeStatus
  rw [hfind]
  dsimp only
  rw [if_neg hauth, hst]


/-! ### Conservation of total supply -/

theorem walletTotal_lockWallet (c : String) (w : Wallet) (t : Rat) :
    walletTotal c (lockWallet w t) = walletTotal c w := by
  unfold walletTotal lockWallet
  dsimp only
  split <;> ring

theorem totalOf_saveWallet_lock {c : String} {w0 : Wallet} {ws : List Wallet} {t : Rat}
    (hn : IdsNodup ws) (hw0 : w0 ∈ ws) :
    totalOf c (saveWallet (lockWallet w0 t) ws) = totalOf c ws := by
  rw [totalOf_saveWallet hn hw0 (show (lockWallet w0 t).id = w0.id from rfl),
      walletTotal_lockWallet]
  ring

theorem acceptOffer_totalOf (db : DB) (u oid : Nat) (a : Rat) (pm : String) (now : Nat)
    (c : String) (hn : IdsNodup db.wallets) :
    totalOf c ((acceptOffer db u oid a pm now).2.wallets) = totalOf c db.wallets := by
  unfold acceptOffer
  repeat' split
  all_goals dsimp only
  all_goals rw [totalOf_saveWallet_lock hn (lockFind_mem (by assumption))]

/-! ### Concrete fixtures -/

/-- Acceptor wallet: user 1 holds 5 BTC available. -/
def wltA1 : Wallet :=
  { id := 1, userId := 1, cryptocurrency := "BTC", network := "BTC",
    balance := 5, lockedBalance := 0, totalDeposits := 0, totalWithdrawals := 0,
    isActive := true, isDefault := true }

/-- Offer owner wallet: user 2 holds 3 BTC available, nothing locked. -/
def wltA2 : Wallet :=
  { id := 2, userId := 2, cryptocurrency := "BTC", network := "BTC",
    balance := 3, lockedBalance := 0, totalDeposits := 0, totalWithdrawals := 0,
    isActive := true, isDefault := true }

/-- A sell offer of user 2 for 1 BTC at 100 USD, fiat limits [100, 1000],
already expired (expiresAt 10). -/
def offerA : P2POffer :=
  { id := 10, userId := 2, type := .sell, cryptocurrency := "BTC", fiatCurrency := "USD",
    amount := 1, price := 100, minLimit := 100, maxLimit := 1000,
    paymentMethods := ["bank_transfer"], status := .active, completedAt := none,
    expiresAt := 10 }

def dbA : DB :=
  { wallets := [wltA1, wltA2], offers := [offerA], trades := [],
    nextWalletId := 3, nextOfferId := 11, nextTradeId := 1 }

/-- The trade created when user 1 accepts offerA for 500 USD (5 BTC). -/
def tradeA : P2PTrade :=
  { id := 1, offerId := 10, buyerId := 1, sellerId := 2, cryptocurrency := "BTC",
    fiatCurrency := "USD", amount := 5, price := 100, totalFiat := 500,
    paymentMethod := "bank_transfer", status := .pending, escrowAmount := 5,
    paymentProof := none, notes := none, completedAt := none, cancelledAt := none }

/-- User 1's wallet after the escrow lock of 5 BTC. -/
def wltA1Locked : Wallet := { wltA1 with balance := 0, lockedBalance := 5 }

def offerADone : P2POffer := { offerA with status := .completed, completedAt := some 100 }

def dbA1 : DB :=
  { wallets := [wltA1Locked, wltA2], offers := [offerADone], trades := [tradeA],
    nextWalletId := 3, nextOfferId := 11, nextTradeId := 2 }

theorem lockFindA :
    lockFind (if offerA.type = .sell then 1 else offerA.userId) offerA.cryptocurrency
      ((500 : Rat) / offerA.price) dbA.wallets = some wltA1 := by
  show lockFind 1 "BTC" ((500 : Rat) / offerA.price) [wltA1, wltA2] = some wltA1
  unfold lockFind
  rw [List.find?_cons_of_pos]
  simp only [Bool.and_eq_true, beq_iff_eq, decide_eq_true_eq]
  refine ⟨⟨⟨rfl, rfl⟩, ?_⟩, rfl⟩
  norm_num [offerA, wltA1]

theorem lockWallet_wltA1 :
    lockWallet wltA1 ((500 : Rat) / offerA.price) = wltA1Locked := by
  simp only [lockWallet, wltA1, wltA1Locked, Wallet.mk.injEq]
  norm_num [offerA]

theorem consumeOffer_offerA :
    consumeOffer offerA ((500 : Rat) / offerA.price) 100 = offerADone := by
  unfold consumeOffer
  rw [if_pos (by norm_num [offerA])]
  rfl

theorem mkTrade_dbA : mkTrade dbA offerA 1 500 "bank_transfer" = tradeA := by
  simp only [mkTrade, dbA, offerA, tradeA, P2PTrade.mk.injEq]
  norm_num

theorem wltA1_lock_ok : WalletOk (lockWallet wltA1 ((500 : Rat) / offerA.price)) := by
  rw [lockWallet_wltA1]
  norm_num [WalletOk, wltA1Locked, wltA1]

theorem tradeA_create_ok : TradeOk (mkTrade dbA offerA 1 500 "bank_transfer") := by
  rw [mkTrade_dbA]
  norm_num [TradeOk, tradeA]

theorem offerA_consume_ok : OfferOk (consumeOffer offerA ((500 : Rat) / offerA.price) 100) := by
  rw [consumeOffer_offerA]
  norm_num [OfferOk, offerADone, offerA]

theorem acceptA_eq :
    acceptOffer dbA 1 10 500 "bank_transfer" 100 = (.created tradeA, dbA1) := by
  rw [acceptOffer_created_spec
      (show dbA.offers.find? (fun x => x.id == 10) = some offerA from rfl)
      (show offerA.status = .active from rfl)
      (show ¬ offerA.userId = 1 by decide)
      (show ¬ ((500 : Rat) < offerA.minLimit ∨ offerA.maxLimit < 500) by norm_num [offerA])
      (show "bank_transfer" ∈ offerA.paymentMethods by decide)
      lockFindA wltA1_lock_ok tradeA_create_ok offerA_consume_ok]
  rw [mkTrade_dbA, lockWallet_wltA1, consumeOffer_offerA]
  decide


/-- A pending trade of 2 BTC, buyer user 1, seller user 2, created with
escrowAmount 2; the route's escrowHeld: true was stripped on create. -/
def tradeE : P2PTrade :=
  { id := 1, offerId := 10, buyerId := 1, sellerId := 2, cryptocurrency := "BTC",
    fiatCurrency := "USD", amount := 2, price := 100, totalFiat := 200,
    paymentMethod := "bank_transfer", status := .pending, escrowAmount := 2,
    paymentProof := none, notes := none, completedAt := none, cancelledAt := none }

/-- Buyer wallet backing the escrow of tradeE: 0 available, 2 locked. -/
def wltE : Wallet :=
  { id := 1, userId := 1, cryptocurrency := "BTC", network := "BTC",
    balance := 0, lockedBalance := 2, totalDeposits := 0, totalWithdrawals := 0,
    isActive := true, isDefault := true }

def dbE : DB :=
  { wallets := [wltE], offers := [], trades := [tradeE],
    nextWalletId := 2, nextOfferId := 11, nextTradeId := 2 }

/-- A trade already in the terminal completed state. -/
def tradeDone : P2PTrade :=
  { tradeE with status := .completed, completedAt := some 50 }

def dbDone : DB :=
  { wallets := [wltE], offers := [], trades := [tradeDone],
    nextWalletId := 2, nextOfferId := 11, nextTradeId := 2 }

/-! ### Claims -/

/-- C1: the trade-lifecycle operations conserve the total amount of every
cryptocurrency summed over all wallets (balance plus lockedBalance).  The
escrow lock of acceptOffer moves value between the two fields of one
wallet, conserving their sum; and updateTradeStatus — the completed and
cancelled transitions included — returns the wallet list unchanged,
because both escrow blocks are guarded by if (trade.escrowHeld) and
escrowHeld, not being a p2pTradeSchema path, is undefined on every stored
trade.  In particular escrowHeld never flips to false on a stored trade,
so the release/return-exactly-once clause is vacuously satisfied: neither
release nor return ever executes. -/
theorem claim1_conservation :
    (∀ (db : DB) (u k : Nat) (a : Rat) (pm : String) (now : Nat) (c : String),
        IdsNodup db.wallets →
        totalOf c ((acceptOffer db u k a pm now).2.wallets) = totalOf c db.wallets)
    ∧ (∀ (db : DB) (u tid : Nat) (s : String) (e : UpdateExtras) (now : Nat),
        (updateTradeStatus db u tid s e now).2.wallets = db.wallets) :=
  ⟨fun db u k a pm now c hn => acceptOffer_totalOf db u k a pm now c hn,
   fun db u tid s e now => updateTradeStatus_wallets_eq db u tid s e now⟩

theorem claim1_conservation_witness :
    totalOf "BTC" ((acceptOffer dbA 1 10 500 "bank_transfer" 100).2.wallets)
        = totalOf "BTC" dbA.wallets
    ∧ (updateTradeStatus dbE 1 1 "completed" noExtras 200).2.wallets = dbE.wallets :=
  ⟨claim1_conservation.1 dbA 1 10 500 "bank_transfer" 100 "BTC" (by decide),
   claim1_conservation.2 dbE 1 1 "completed" noExtras 200⟩

/-- C2 counterexample: user 1 accepts the sell offer of user 2; the
created trade has sellerId 2 and escrowAmount 5, yet
every wallet of user 2 still has lockedBalance 0 after the accept — the
escrow is locked in the wallet of the trade buyerId (user 1), whose
lockedBalance became 5, not in the seller wallet. -/
theorem claim2_counterexample :
    (acceptOffer dbA 1 10 500 "bank_transfer" 100).1 = .created tradeA
    ∧ tradeA.escrowAmount = 5
    ∧ tradeA.sellerId = 2
    ∧ tradeA.buyerId = 1
    ∧ (∀ w ∈ (acceptOffer dbA 1 10 500 "bank_transfer" 100).2.wallets,
        w.userId = 2 → w.lockedBalance = 0)
    ∧ (∀ w ∈ (acceptOffer dbA 1 10 500 "bank_transfer" 100).2.wallets,
        w.userId = 1 → w.lockedBalance = 5) := by
  rw [acceptA_eq]
  exact ⟨rfl, rfl, rfl, rfl, by decide, by decide⟩

/-- C2 amended: for both buy and sell offers, the wallet that acceptOffer
locks belongs to the trade buyerId (the acceptor on sell offers, the
offer owner on buy offers), never to the sellerId: the locked wallet
userId equals the created trade buyerId, which differs from its
sellerId. -/
theorem claim2_amended_lock_is_buyer_wallet {db : DB} {u k : Nat} {a : Rat} {pm : String}
    {now : Nat} {o : P2POffer} {w : Wallet}
    (hfind : db.offers.find? (fun x => x.id == k) = some o)
    (hact : o.status = .active)
    (hown : ¬ o.userId = u)
    (hlim : ¬ (a < o.minLimit ∨ o.maxLimit < a))
    (hpm : pm ∈ o.paymentMethods)
    (hlock : lockFind (if o.type = .sell then u else o.userId) o.cryptocurrency (a / o.price)
        db.wallets = some w)
    (hwok : WalletOk (lockWallet w (a / o.price)))
    (htok : TradeOk (mkTrade db o u a pm))
    (hook : OfferOk (consumeOffer o (a / o.price) now)) :
    acceptOffer db u k a pm now =
      (.created (mkTrade db o u a pm),
        { db with wallets := saveWallet (lockWallet w (a / o.price)) db.wallets,
                  trades := db.trades ++ [mkTrade db o u a pm],
                  offers := saveOffer (consumeOffer o (a / o.price) now) db.offers,
                  nextTradeId := db.nextTradeId + 1 })
    ∧ w.userId = (mkTrade db o u a pm).buyerId
    ∧ (mkTrade db o u a pm).buyerId ≠ (mkTrade db o u a pm).sellerId := by
  refine ⟨acceptOffer_created_spec hfind hact hown hlim hpm hlock hwok htok hook, ?_, ?_⟩
  · show w.userId = if o.type = .sell then u else o.userId
    exact (lockFind_props hlock).2.1
  · show (if o.type = .sell then u else o.userId) ≠ (if o.type = .sell then o.userId else u)
    split
    · exact fun hc => hown hc.symm
    · exact hown

theorem claim2_amended_lock_is_buyer_wallet_witness :
    wltA1.userId = (mkTrade dbA offerA 1 500 "bank_transfer").buyerId
    ∧ (mkTrade dbA offerA 1 500 "bank_transfer").buyerId
        ≠ (mkTrade dbA offerA 1 500 "bank_transfer").sellerId :=
  (claim2_amended_lock_is_buyer_wallet
    (show dbA.offers.find? (fun x => x.id == 10) = some offerA from rfl)
    (show offerA.status = .active from rfl)
    (show ¬ offerA.userId = 1 by decide)
    (show ¬ ((500 : Rat) < offerA.minLimit ∨ offerA.maxLimit < 500) by norm_num [offerA])
    (show "bank_transfer" ∈ offerA.paymentMethods by decide)
    lockFindA wltA1_lock_ok tradeA_create_ok offerA_consume_ok).2

/-- C3: every wallet keeps balance ≥ 0 and lockedBalance ≥ 0 after any
sequence of the exposed operations (createOffer, acceptOffer,
updateTradeStatus, wallet create/update/delete, deposit confirmation):
each wallet write is either guarded by the schema min: 0 validation (a
violating save aborts the handler) or adds a nonnegative amount. -/
theorem claim3_wallets_nonneg (db : DB) (ops : List Op) (h : WalletsNonneg db.wallets) :
    WalletsNonneg ((applyOps db ops).wallets) :=
  applyOps_walletsNonneg db ops h

theorem claim3_wallets_nonneg_witness :
    WalletsNonneg ((applyOps dbA
      [.deposit 1 1 7, .accept 1 10 500 "bank_transfer" 100,
       .updateTrade 1 1 "cancelled" noExtras 200, .deleteWallet 2 2]).wallets) :=
  claim3_wallets_nonneg dbA _ (by decide)

/-- C4 counterexample: user 1 accepts the sell offer of user 2; the lock
lands on user 1's wallet, leaving it at balance 0 / locked 5.  The trade
is then cancelled successfully, yet no unlock happens anywhere: the
wallet list after the cancel is exactly the post-lock wallet list, so the
locking wallet does not regain its pre-lock values (balance 5 /
locked 0). -/
theorem claim4_counterexample :
    (acceptOffer dbA 1 10 500 "bank_transfer" 100).1 = .created tradeA
    ∧ (acceptOffer dbA 1 10 500 "bank_transfer" 100).2.wallets = [wltA1Locked, wltA2]
    ∧ (updateTradeStatus (acceptOffer dbA 1 10 500 "bank_transfer" 100).2 1 1 "cancelled"
        noExtras 200).1 = .ok (cancelledTrade tradeA noExtras 200)
    ∧ (updateTradeStatus (acceptOffer dbA 1 10 500 "bank_transfer" 100).2 1 1 "cancelled"
        noExtras 200).2.wallets = [wltA1Locked, wltA2]
    ∧ wltA1Locked.userId = tradeA.buyerId
    ∧ ¬ (wltA1Locked.balance = wltA1.balance
          ∧ wltA1Locked.lockedBalance = wltA1.lockedBalance) := by
  rw [acceptA_eq]
  dsimp only
  rw [updateTradeStatus_cancelled_spec noExtras 200
      (show dbA1.trades.find? (fun x => x.id == 1) = some tradeA from rfl)
      (show ¬ (tradeA.buyerId ≠ 1 ∧ tradeA.sellerId ≠ 1) by decide)
      (show tradeStatusOfString "cancelled" = some .cancelled from rfl)]
  exact ⟨rfl, rfl, rfl, rfl, rfl, by decide⟩

/-- C4 amended: cancelling a trade performs no unlock at all.  The
cancelled branch's unlock of the seller wallet is guarded by
if (trade.escrowHeld), and escrowHeld — absent from p2pTradeSchema — is
undefined on every stored trade, so the cancel stores the trade with
status cancelled and cancelledAt set and returns the wallet list
byte-for-byte unchanged: the wallet the accept lock was taken from keeps
its post-lock balances and the lock-then-unlock round-trip law fails. -/
theorem claim4_amended_cancel_never_unlocks {db : DB} {u tid : Nat} {s : String}
    {e : UpdateExtras} {now : Nat} {trade : P2PTrade}
    (hfind : db.trades.find? (fun x => x.id == tid) = some trade)
    (hauth : ¬ (trade.buyerId ≠ u ∧ trade.sellerId ≠ u))
    (hst : tradeStatusOfString s = some .cancelled) :
    updateTradeStatus db u tid s e now =
      (.ok (cancelledTrade trade e now),
        { db with trades := saveTrade (cancelledTrade trade e now) db.trades })
    ∧ (updateTradeStatus db u tid s e now).2.wallets = db.wallets := by
  have h := updateTradeStatus_cancelled_spec e now hfind hauth hst
  exact ⟨h, by rw [h]⟩

theorem claim4_amended_cancel_never_unlocks_witness :
    updateTradeStatus dbA1 1 1 "cancelled" noExtras 200 =
      (.ok (cancelledTrade tradeA noExtras 200),
        { dbA1 with trades := saveTrade (cancelledTrade tradeA noExtras 200) dbA1.trades })
    ∧ (updateTradeStatus dbA1 1 1 "cancelled" noExtras 200).2.wallets = dbA1.wallets :=
  claim4_amended_cancel_never_unlocks
    (show dbA1.trades.find? (fun x => x.id == 1) = some tradeA from rfl)
    (show ¬ (tradeA.buyerId ≠ 1 ∧ tradeA.sellerId ≠ 1) by decide)
    (show tradeStatusOfString "cancelled" = some .cancelled from rfl)

/-- C5: completing a trade twice moves escrow funds zero times, not once.
tradeE was created with 2 BTC locked in the buyer's wallet wltE
(escrowAmount 2), but escrowHeld is not a p2pTradeSchema path, so the
stored trade does not carry it and the completed branch's
if (trade.escrowHeld) release never fires: both completed invocations
succeed, yet the buyer wallet is never credited — after both calls it
still has balance 0 with the 2 BTC locked forever, contradicting the
release-exactly-once behaviour that the route's own escrow block and the
IP2PTrade interface intend. -/
theorem claim5_code_bug_eval :
    (updateTradeStatus dbE 1 1 "completed" noExtras 200).1
        = .ok (completedTrade tradeE noExtras 200)
    ∧ (updateTradeStatus (updateTradeStatus dbE 1 1 "completed" noExtras 200).2 1 1
        "completed" noExtras 300).1
        = .ok (completedTrade (completedTrade tradeE noExtras 200) noExtras 300)
    ∧ (updateTradeStatus dbE 1 1 "completed" noExtras 200).2.wallets = [wltE]
    ∧ (updateTradeStatus (updateTradeStatus dbE 1 1 "completed" noExtras 200).2 1 1
        "completed" noExtras 300).2.wallets = [wltE]
    ∧ wltE.userId = tradeE.buyerId
    ∧ wltE.cryptocurrency = tradeE.cryptocurrency
    ∧ wltE.balance = 0
    ∧ wltE.lockedBalance = tradeE.escrowAmount := by
  have h1 := updateTradeStatus_completed_spec noExtras 200
    (show dbE.trades.find? (fun x => x.id == 1) = some tradeE from rfl)
    (show ¬ (tradeE.buyerId ≠ 1 ∧ tradeE.sellerId ≠ 1) by decide)
    (show tradeStatusOfString "completed" = some .completed from rfl)
  have h2 := updateTradeStatus_completed_spec noExtras 300
    (show (updateTradeStatus dbE 1 1 "completed" noExtras 200).2.trades.find?
        (fun x => x.id == 1) = some (completedTrade tradeE noExtras 200) by
      rw [h1]; rfl)
    (show ¬ ((completedTrade tradeE noExtras 200).buyerId ≠ 1
        ∧ (completedTrade tradeE noExtras 200).sellerId ≠ 1) by decide)
    (show tradeStatusOfString "completed" = some .completed from rfl)
  refine ⟨by rw [h1], by rw [h2], by rw [h1]; rfl, ?_, rfl, rfl, rfl, rfl⟩
  rw [h2, h1]
  rfl

/-- C6 counterexample: offerA has remaining amount 1 BTC, yet an accept
whose crypto amount is 5 BTC (500 USD at price 100, inside the fiat
limits) succeeds: the created trade is for 5 BTC, more than the whole
offer, and the offer is marked completed with its amount still 1, never
reaching zero. -/
theorem claim6_counterexample :
    offerA.amount < tradeA.amount
    ∧ (acceptOffer dbA 1 10 500 "bank_transfer" 100).1 = .created tradeA
    ∧ (acceptOffer dbA 1 10 500 "bank_transfer" 100).2.offers = [offerADone]
    ∧ offerADone.amount = offerA.amount
    ∧ offerADone.status = .completed
    ∧ ¬ offerADone.amount = 0 := by
  rw [acceptA_eq]
  exact ⟨by norm_num [offerA, tradeA], rfl, rfl, rfl, rfl, by decide⟩

/-- C6 amended: acceptOffer validates the fiat amount only against
[minLimit, maxLimit], never against the remaining offer amount, so a
single accept may consume more than the offer holds.  The offer amount
never increases: it is left unchanged (and the offer marked completed)
when remaining ≤ tradeAmount, and decremented by tradeAmount otherwise,
so the sum of created trades can exceed the original amount by the final
trade's overshoot. -/
theorem claim6_amended_offer_consumption {db : DB} {u k : Nat} {a : Rat} {pm : String}
    {now : Nat} {o : P2POffer} {w : Wallet}
    (hfind : db.offers.find? (fun x => x.id == k) = some o)
    (hact : o.status = .active)
    (hown : ¬ o.userId = u)
    (hlim : ¬ (a < o.minLimit ∨ o.maxLimit < a))
    (hpm : pm ∈ o.paymentMethods)
    (hlock : lockFind (if o.type = .sell then u else o.userId) o.cryptocurrency (a / o.price)
        db.wallets = some w)
    (hwok : WalletOk (lockWallet w (a / o.price)))
    (htok : TradeOk (mkTrade db o u a pm))
    (hook : OfferOk (consumeOffer o (a / o.price) now))
    (hmin : 0 < o.minLimit) (hprice : 0 < o.price) :
    acceptOffer db u k a pm now =
      (.created (mkTrade db o u a pm),
        { db with wallets := saveWallet (lockWallet w (a / o.price)) db.wallets,
                  trades := db.trades ++ [mkTrade db o u a pm],
                  offers := saveOffer (consumeOffer o (a / o.price) now) db.offers,
                  nextTradeId := db.nextTradeId + 1 })
    ∧ (consumeOffer o (a / o.price) now).amount ≤ o.amount
    ∧ (o.amount ≤ a / o.price →
        (consumeOffer o (a / o.price) now).status = .completed
        ∧ (consumeOffer o (a / o.price) now).amount = o.amount)
    ∧ (a / o.price < o.amount →
        (consumeOffer o (a / o.price) now).amount = o.amount - a / o.price) := by
  have ha : 0 < a := lt_of_lt_of_le hmin (not_lt.mp (not_or.mp hlim).1)
  have hta : 0 < a / o.price := div_pos ha hprice
  refine ⟨acceptOffer_created_spec hfind hact hown hlim hpm hlock hwok htok hook, ?_, ?_, ?_⟩
  · unfold consumeOffer
    split
    · exact le_refl _
    · dsimp only
      linarith
  · intro hle
    unfold consumeOffer
    rw [if_pos hle]
    exact ⟨rfl, rfl⟩
  · intro hlt
    unfold consumeOffer
    rw [if_neg (not_le.mpr hlt)]

theorem claim6_amended_offer_consumption_witness :
    (consumeOffer offerA ((500 : Rat) / offerA.price) 100).amount ≤ offerA.amount :=
  (claim6_amended_offer_consumption
    (show dbA.offers.find? (fun x => x.id == 10) = some offerA from rfl)
    (show offerA.status = .active from rfl)
    (show ¬ offerA.userId = 1 by decide)
    (show ¬ ((500 : Rat) < offerA.minLimit ∨ offerA.maxLimit < 500) by norm_num [offerA])
    (show "bank_transfer" ∈ offerA.paymentMethods by decide)
    lockFindA wltA1_lock_ok tradeA_create_ok offerA_consume_ok
    (show (0 : Rat) < offerA.minLimit by norm_num [offerA])
    (show (0 : Rat) < offerA.price by norm_num [offerA])).2.1

/-- C7 counterexample: offerA expired at time 10 and still has status
active; at time 100 the accept succeeds anyway, and the offer is returned
by the listing filter, which never looks at expiresAt. -/
theorem claim7_counterexample :
    offerA.status = .active
    ∧ offerA.expiresAt < 100
    ∧ (acceptOffer dbA 1 10 500 "bank_transfer" 100).1 = .created tradeA
    ∧ offerA ∈ listOffers dbA noFilter := by
  exact ⟨rfl, by decide, by rw [acceptA_eq], by decide⟩

/-- C7 amended: neither acceptOffer nor the offer listing consults
expiresAt.  An offer whose expiresAt has passed is accepted whenever the
status and the other checks pass, and the listing returns exactly the
offers matching the status/type/asset/limit filter — an expired offer
with status active is listed.  Only the "status must be active" half of
the original claim holds. -/
theorem claim7_amended_expiry_ignored {db : DB} {u k : Nat} {a : Rat} {pm : String}
    {now : Nat} {o : P2POffer} {w : Wallet}
    (hfind : db.offers.find? (fun x => x.id == k) = some o)
    (hact : o.status = .active)
    (hown : ¬ o.userId = u)
    (hlim : ¬ (a < o.minLimit ∨ o.maxLimit < a))
    (hpm : pm ∈ o.paymentMethods)
    (hlock : lockFind (if o.type = .sell then u else o.userId) o.cryptocurrency (a / o.price)
        db.wallets = some w)
    (hwok : WalletOk (lockWallet w (a / o.price)))
    (htok : TradeOk (mkTrade db o u a pm))
    (hook : OfferOk (consumeOffer o (a / o.price) now))
    (hexp : o.expiresAt ≤ now) :
    acceptOffer db u k a pm now =
      (.created (mkTrade db o u a pm),
        { db with wallets := saveWallet (lockWallet w (a / o.price)) db.wallets,
                  trades := db.trades ++ [mkTrade db o u a pm],
                  offers := saveOffer (consumeOffer o (a / o.price) now) db.offers,
                  nextTradeId := db.nextTradeId + 1 })
    ∧ (∀ f o2, o2 ∈ db.offers → offerMatches f o2 = true → o2 ∈ listOffers db f)
    ∧ (∀ f o2, o2 ∈ listOffers db f → o2.status = .active) := by
  refine ⟨acceptOffer_created_spec hfind hact hown hlim hpm hlock hwok htok hook, ?_, ?_⟩
  · intro f o2 hmem hm
    unfold listOffers
    exact List.mem_filter.mpr ⟨hmem, hm⟩
  · intro f o2 hmem
    unfold listOffers at hmem
    have hm := (List.mem_filter.mp hmem).2
    unfold offerMatches at hm
    simp only [Bool.and_eq_true, beq_iff_eq] at hm
    exact hm.1.1.1.1.1.1

theorem claim7_amended_expiry_ignored_witness :
    offerA ∈ listOffers dbA noFilter ∧ offerA.expiresAt ≤ 100 :=
  ⟨(claim7_amended_expiry_ignored
      (show dbA.offers.find? (fun x => x.id == 10) = some offerA from rfl)
      (show offerA.status = .active from rfl)
      (show ¬ offerA.userId = 1 by decide)
      (show ¬ ((500 : Rat) < offerA.minLimit ∨ offerA.maxLimit < 500) by norm_num [offerA])
      (show "bank_transfer" ∈ offerA.paymentMethods by decide)
      lockFindA wltA1_lock_ok tradeA_create_ok offerA_consume_ok
      (show offerA.expiresAt ≤ 100 by decide)).2.1 noFilter offerA (by decide) (by decide),
   by decide⟩

/-- C8: when every candidate escrow wallet (matching user, asset and
isActive) has available balance strictly below the required crypto
amount, acceptOffer fails with InsufficientFunds and the store is
returned unchanged: no wallet write, no trade, no offer consumption. -/
theorem claim8_insufficient_funds_no_write {db : DB} {u k : Nat} {a : Rat} {pm : String}
    {now : Nat} {o : P2POffer}
    (hfind : db.offers.find? (fun x => x.id == k) = some o)
    (hact : o.status = .active)
    (hown : ¬ o.userId = u)
    (hlim : ¬ (a < o.minLimit ∨ o.maxLimit < a))
    (hpm : pm ∈ o.paymentMethods)
    (hpoor : ∀ w ∈ db.wallets, w.userId = (if o.type = .sell then u else o.userId) →
        w.cryptocurrency = o.cryptocurrency → w.isActive = true → w.balance < a / o.price) :
    acceptOffer db u k a pm now = (.insufficientFunds, db) :=
  acceptOffer_insufficient_spec hfind hact hown hlim hpm (lockFind_eq_none hpoor)

theorem claim8_insufficient_funds_no_write_witness :
    acceptOffer dbA 1 10 1000 "bank_transfer" 100 = (.insufficientFunds, dbA) :=
  claim8_insufficient_funds_no_write
    (show dbA.offers.find? (fun x => x.id == 10) = some offerA from rfl)
    (show offerA.status = .active from rfl)
    (show ¬ offerA.userId = 1 by decide)
    (show ¬ ((1000 : Rat) < offerA.minLimit ∨ offerA.maxLimit < 1000) by norm_num [offerA])
    (show "bank_transfer" ∈ offerA.paymentMethods by decide)
    (by
      intro w hw h1 h2 h3
      have hw2 : w ∈ [wltA1, wltA2] := hw
      rcases List.mem_cons.mp hw2 with rfl | hw3
      · norm_num [wltA1, offerA]
      · rcases List.mem_cons.mp hw3 with rfl | hw4
        · exfalso
          simp [wltA2, offerA] at h1
        · cases hw4)

/-- C9 counterexample: a trade already in the terminal completed state is
moved back to pending by updateTradeStatus — the handler checks only that
the new status belongs to the seven valid statuses, not that the
transition is legal, so terminal states can be left. -/
theorem claim9_counterexample :
    tradeDone.status = .completed
    ∧ (updateTradeStatus dbDone 1 1 "pending" noExtras 400).1
        = .ok { tradeDone with status := .pending }
    ∧ (updateTradeStatus dbDone 1 1 "pending" noExtras 400).2.trades
        = [{ tradeDone with status := .pending }] := by
  decide

/-- C9 amended: updateTradeStatus validates only membership of the new
status in the seven-element validStatuses list.  A string outside the
list is rejected without any change; any listed status is accepted from
any current status — including transitions out of completed or cancelled
— and stored. -/
theorem claim9_amended_membership_only {db : DB} {u tid : Nat} {s : String}
    {e : UpdateExtras} {now : Nat} {trade : P2PTrade}
    (hfind : db.trades.find? (fun x => x.id == tid) = some trade)
    (hauth : ¬ (trade.buyerId ≠ u ∧ trade.sellerId ≠ u)) :
    (tradeStatusOfString s = none → updateTradeStatus db u tid s e now = (.invalidStatus, db))
    ∧ (∀ st, tradeStatusOfString s = some st → ¬ st = .completed → ¬ st = .cancelled →
        updateTradeStatus db u tid s e now =
          (.ok (applyExtras trade e st),
            { db with trades := saveTrade (applyExtras trade e st) db.trades })) :=
  ⟨fun hs => updateTradeStatus_invalid_spec e now hfind hauth hs,
   fun st hs h1 h2 => updateTradeStatus_other_spec e now hfind hauth hs h1 h2⟩

theorem claim9_amended_membership_only_witness :
    updateTradeStatus dbDone 1 1 "pending" noExtras 400 =
      (.ok (applyExtras tradeDone noExtras .pending),
        { dbDone with
            trades := saveTrade (applyExtras tradeDone noExtras .pending) dbDone.trades })
    ∧ tradeDone.status = .completed :=
  ⟨(claim9_amended_membership_only
      (show dbDone.trades.find? (fun x => x.id == 1) = some tradeDone from rfl)
      (show ¬ (tradeDone.buyerId ≠ 1 ∧ tradeDone.sellerId ≠ 1) by decide)).2
    .pending rfl (by decide) (by decide), rfl⟩

end Finly
